import Mathlib

/-!
Verification development for the fragment-bot repository: a shallow
embedding of the marketplace-page interpreter (`services/handler.py`),
the TTL refresh caches (`services/rates.py`, `services/getgems.py`),
the query classifier (`bot.py`, `config.py`) and the numeric conversion
path (`services/price_converter.py`), together with theorems settling
the frozen claims about the natural-language specification.

Python strings are modelled over `List Char`; every helper below is a
structurally recursive, kernel-computable translation of the string
operation the source uses (`in`, `strip`, `replace`, slicing, `int()`,
`float()`, `re.search`, `re.match`).
-/

/-! ### String primitives (Python semantics, over `List Char`) -/

/-- `leadMatch needle hay`: `needle` is a prefix of `hay`. -/
def leadMatch : List Char → List Char → Bool
  | [], _ => true
  | _ :: _, [] => false
  | a :: as', b :: bs => a = b && leadMatch as' bs

/-- `subOccurs needle hay`: `needle` occurs contiguously in `hay`
(Python `needle in hay`). -/
def subOccurs (needle : List Char) : List Char → Bool
  | [] => leadMatch needle []
  | b :: bs => leadMatch needle (b :: bs) || subOccurs needle bs

/-- Python `needle in hay` on strings. -/
def pyIn (needle hay : String) : Bool := subOccurs needle.toList hay.toList

/-- One `replace` step over char lists, with fuel (`fuel` = initial
length suffices, each step consumes at least one char of `hay`).
Python `str.replace`: all non-overlapping occurrences, left to right. -/
def replChars (pat rep : List Char) : Nat → List Char → List Char
  | _, [] => []
  | 0, hay => hay
  | Nat.succ fuel, c :: rest =>
    if pat ≠ [] ∧ leadMatch pat (c :: rest) then
      rep ++ replChars pat rep fuel ((c :: rest).drop pat.length)
    else
      c :: replChars pat rep fuel rest

/-- Python `s.replace(pat, rep)` (for non-empty `pat`, the only use here). -/
def pyReplace (s pat rep : String) : String :=
  String.mk (replChars pat.toList rep.toList s.toList.length s.toList)

/-- Python whitespace test for `str.strip()`. -/
def isWS (c : Char) : Bool := c = ' ' || c = '\t' || c = '\n' || c = '\r'

/-- Python `str.strip()`. -/
def pyStrip (s : String) : String :=
  String.mk (((s.toList.dropWhile isWS).reverse.dropWhile isWS).reverse)

/-- Python `s[:n]` for `n ≥ 0`. -/
def pySliceTo (s : String) (n : Nat) : String := String.mk (s.toList.take n)

/-- Python `s[-n:]` for `n ≥ 1` (the whole string when shorter). -/
def pySliceLast (s : String) (n : Nat) : String :=
  String.mk ((s.toList.reverse.take n).reverse)

/-- Python `s.startswith(p)`. -/
def pyStartsWith (s p : String) : Bool := leadMatch p.toList s.toList

def isDigitChar (c : Char) : Bool := '0' ≤ c && c ≤ '9'

/-- Decimal value of a digit list (leading zeros allowed). -/
def digitsVal (l : List Char) : Nat :=
  l.foldl (fun n c => 10 * n + (c.toNat - 48)) 0

/-- Python `int(s)` restricted to the inputs reachable in this code base
(strings of decimal digits after the code's own cleanup); any other
string raises `ValueError`, modelled as `none`. -/
def pyInt (s : String) : Option Nat :=
  let l := s.toList
  if l ≠ [] ∧ l.all isDigitChar then some (digitsVal l) else none

/-- ASCII lower-casing, Python `str.lower()` on the ASCII texts used here. -/
def pyLower (s : String) : String :=
  String.mk (s.toList.map (fun c =>
    if 'A' ≤ c ∧ c ≤ 'Z' then Char.ofNat (c.toNat + 32) else c))

/-- Decimal representation of a natural number (Python `str`/f-string). -/
def natStr (n : Nat) : String := toString n

/-- Character class of the amount regex `[0-9,.]`. -/
def amountClass (c : Char) : Bool := isDigitChar c || c = ',' || c = '.'

/-- `re.search(r"\$([0-9,.]+)", s)`: first `$` followed by at least one
`[0-9,.]` character; returns the greedy capture group. -/
def findDollarAux : List Char → Option (List Char)
  | [] => none
  | c :: rest =>
    if c = '$' then
      let run := rest.takeWhile amountClass
      if run = [] then findDollarAux rest else some run
    else findDollarAux rest

def findDollar (s : String) : Option String :=
  (findDollarAux s.toList).map String.mk

/-- Python truthiness of an optional string (`None` and `""` are falsy). -/
def truthyOptStr : Option String → Bool
  | none => false
  | some s => s ≠ ""

/-! ### Domain model of the parsed marketplace page

Each field of the structures below is the outcome of one BeautifulSoup
selector probe the source performs; `none` means the selected node (or
attribute) is absent from the document. -/

/-- An `a.tm-wallet` link: its `href` and the `span.short` / `span.head` /
`span.tail` child texts. -/
structure WalletLink where
  href : Option String
  short : Option String
  head : Option String
  tail : Option String
deriving DecidableEq

/-- A `td` cell as probed by the bid-row extractors. -/
structure TdCell where
  wallet : Option WalletLink
deriving DecidableEq

/-- The first row of the bid-history table (`.tm-table-wrap table tbody tr`). -/
structure BidRow where
  tds : List TdCell
deriving DecidableEq

/-- The first `td` of a table: its `.table-cell-value` and
`.table-cell-desc` child texts. -/
structure Cell where
  cellValue : Option String
  cellDesc : Option String
deriving DecidableEq

/-- One `table` element: its `th` texts in order, its first `td`, and the
table-wide `td div.table-cell-value` / `td a.tm-wallet` probes used by the
sold-state extractors. -/
structure Table where
  headers : List String
  firstTd : Option Cell
  tdCellValue : Option String
  tdWallet : Option WalletLink
deriving DecidableEq

/-- The primary price widget probed by `available_price_info`: the
`.icon-ton` child text, the container's own text, and the resolved
`table-cell-desc` text (next sibling, else child). -/
structure PriceContainer where
  iconTonText : Option String
  selfText : String
  descText : Option String
deriving DecidableEq

/-- The `.js-buy-now-btn` button: its `data-bid-amount` attribute and the
`.tm-amount` child text. -/
structure BuyNowWidget where
  dataBidAmount : Option String
  tmAmountText : Option String
deriving DecidableEq

/-- The countdown timer digits: `data-val` of `.timer-d`, `.timer-h0`,
`.timer-h1`, `.timer-m0`, `.timer-m1` (absent element or attribute =
`none`). -/
structure Countdown where
  daysVal : Option String
  hour0 : Option String
  hour1 : Option String
  min0 : Option String
  min1 : Option String
deriving DecidableEq

/-- A fetched, markup-parseable document, as observed by the interpreter. -/
structure Doc where
  /-- the raw HTML body (`html_text` / `html_content`) -/
  htmlText : String
  /-- `soup.text`, the tag-stripped page text -/
  pageText : String
  /-- text of `.tm-section-header-status`, `none` when the node is absent -/
  statusSpanText : Option String
  /-- `.tm-section-bid .table-cell-value.tm-value` -/
  bidSectionPrice : Option PriceContainer
  /-- `.table-cell.table-cell-oneline` -/
  onelineCell : Option PriceContainer
  /-- `soup.find_all("table")` in document order -/
  tables : List Table
  /-- first `tr` of `.tm-table-wrap table tbody` (`none` when the table
  body or the row is absent) -/
  firstBidRow : Option BidRow
  /-- `.btn.btn-primary.js-buy-now-btn` -/
  buyNow : Option BuyNowWidget
  /-- `.tm-section-countdown time.tm-countdown-timer` (`none` when the
  section or the timer is absent) -/
  countdown : Option Countdown
deriving DecidableEq

/-- The buttons built by `services/result_articles.py`, tagged with the
arguments the source passes to each `create_*` constructor. -/
inductive Button where
  | priceBtn (username : String) (ton usd : Option String)
  | salePriceBtn (username price : String)
  | walletBtn (name url : String) (hasBids : Bool)
  | telegramBtn (name : String)
  | buyNowBtn (username ton : String)
  | mintBtn (isFragmentMint : Bool) (beneficiar : String)
deriving DecidableEq

/-! ### Extractors (`services/handler.py`) -/

/-- `get_username_status`: text of the status marker node, stripped. -/
def getUsernameStatus (d : Doc) : Option String :=
  d.statusSpanText.map pyStrip

/-- `create_telegram_button`. -/
def createTelegramButton (name : String) : Option Button :=
  if pyIn "t.me" name then some (.telegramBtn (pyReplace name ".t.me" ""))
  else none

/-- `available_price_info`. -/
def availablePriceInfo (d : Doc) (username : String) : Option Button :=
  match d.bidSectionPrice.orElse (fun _ => d.onelineCell) with
  | none => none
  | some pc =>
    let tonAmount := pyStrip (pc.iconTonText.getD pc.selfText)
    let usdAmount := pc.descText.bind findDollar
    if tonAmount ≠ "" ∨ usdAmount.isSome then
      some (.priceBtn username (some tonAmount) usdAmount)
    else none

/-- Resolve a wallet display name from `span.short`, else from
`span.head`/`span.tail`; `none` models the `AttributeError` raised (and
caught by the caller) when the head or tail span is missing. -/
def headTailName (w : WalletLink) : Option String :=
  match w.short with
  | some s => some (pyStrip s)
  | none =>
    match w.head, w.tail with
    | some h, some t =>
      some (pySliceTo (pyStrip h) 5 ++ "..." ++ pySliceLast (pyStrip t) 5)
    | _, _ => none

/-- `most_recent_wallet_info`. -/
def mostRecentWalletInfo (d : Doc) (hasBids : Bool) : Option (List Button) :=
  match d.firstBidRow with
  | none => none
  | some row =>
    match row.tds.getLast? with
    | none => none
    | some cell =>
      match cell.wallet with
      | none => none
      | some w =>
        match w.href with
        | none => none
        | some link =>
          match headTailName w with
          | none => none
          | some name =>
            let walletButton :=
              Button.walletBtn (if name = "" then "Unknown Bidder" else name)
                link hasBids
            let telegram :=
              if name ≠ "" ∧ ¬ pyStartsWith name "EQ" ∧ ¬ pyStartsWith name "UQ"
              then createTelegramButton name else none
            some (walletButton :: telegram.toList)

/-- The scan of `extract_minimum_bid_info` over `soup.find_all("table")`:
first table with a "Minimum Bid" header whose first cell yields an
amount; a matching table without an amount lets the loop continue. -/
def minBidFromTables (username : String) : List Table → Option Button
  | [] => none
  | t :: rest =>
    if t.headers.any (fun h => pyIn "Minimum Bid" h) then
      match t.firstTd with
      | some cell =>
        let tonAmount := cell.cellValue.map pyStrip
        let usdAmount := cell.cellDesc.bind findDollar
        if truthyOptStr tonAmount || usdAmount.isSome then
          some (.priceBtn username tonAmount usdAmount)
        else minBidFromTables username rest
      | none => minBidFromTables username rest
    else minBidFromTables username rest

/-- `extract_minimum_bid_info`: guarded by the absence of the literal
"Highest Bid" anywhere in `soup.text`. -/
def extractMinimumBidInfo (d : Doc) (username : String) : Option Button :=
  if pyIn "Highest Bid" d.pageText then none
  else minBidFromTables username d.tables

/-- The scan of `extract_highest_bid_info`: only each table's FIRST `th`
is examined, and a matching table that yields no amount `break`s out of
the loop. -/
def highBidFromTables (username : String) : List Table → Option Button
  | [] => none
  | t :: rest =>
    match t.headers.head? with
    | some h =>
      if pyIn "Highest Bid" h then
        match t.firstTd with
        | some cell =>
          let tonAmount := cell.cellValue.map pyStrip
          let usdAmount := cell.cellDesc.bind findDollar
          if truthyOptStr tonAmount || usdAmount.isSome then
            some (.priceBtn username tonAmount usdAmount)
          else none
        | none => none
      else highBidFromTables username rest
    | none => highBidFromTables username rest

/-- `extract_highest_bid_info`. -/
def extractHighestBidInfo (d : Doc) (username : String) : Option Button :=
  highBidFromTables username d.tables

/-- Thousands-grouped rendering of a natural number, Python `f"{n:,}"`. -/
def groupDigitsAux : List Char → List Char
  | a :: b :: c :: d :: rest => a :: b :: c :: ',' :: groupDigitsAux (d :: rest)
  | l => l

def groupDigits (n : Nat) : String :=
  String.mk ((groupDigitsAux (natStr n).toList.reverse).reverse)

/-- `extract_buy_now_info`. -/
def extractBuyNowInfo (d : Doc) (username : String) : Option Button :=
  match d.buyNow with
  | none => none
  | some w =>
    match w.dataBidAmount with
    | none => none
    | some raw =>
      let cleaned := pyReplace raw "," ""
      match pyInt cleaned with
      | none => none
      | some n =>
        let formatted := groupDigits n
        let displayed := (w.tmAmountText.map pyStrip).getD formatted
        some (.buyNowBtn username displayed)

/-- `extract_ends_in_info`. -/
def extractEndsInInfo (cd : Option Countdown) : Option String :=
  match cd with
  | none => none
  | some c =>
    let daysText := c.daysVal.getD "0 days"
    let hoursText :=
      match c.hour0, c.hour1 with
      | some a, some b => a ++ b
      | _, _ => "00"
    let minsText :=
      match c.min0, c.min1 with
      | some a, some b => a ++ b
      | _, _ => "00"
    if pyIn "0 days" daysText then
      match pyInt hoursText, pyInt minsText with
      | some h, some m => some (natStr h ++ "h " ++ natStr m ++ "m")
      | _, _ => none
    else
      match pyInt (pyReplace (pyReplace daysText " days" "") " day" ""),
            pyInt hoursText, pyInt minsText with
      | some dys, some h, some m =>
        some (natStr dys ++ "d " ++ natStr h ++ "h " ++ natStr m ++ "m")
      | _, _, _ => none

/-- The first table owning a `th` whose text contains "Sale Price"
(`soup.find_all("th")` scan with `break`). -/
def findSaleTable (ts : List Table) : Option Table :=
  ts.find? (fun t => t.headers.any (fun h => pyIn "Sale Price" h))

/-- `extract_sold_price_info`. -/
def extractSoldPriceInfo (d : Doc) (username : String) : Option Button :=
  match findSaleTable d.tables with
  | none => none
  | some t =>
    match t.tdCellValue with
    | none => none
    | some v =>
      let price := pyStrip v
      if price ≠ "" then some (.salePriceBtn username price) else none

/-- `extract_sold_owner_info` (its head/tail fallback substitutes
"Unknown Owner" instead of raising). -/
def extractSoldOwnerInfo (d : Doc) : Option (List Button) :=
  match findSaleTable d.tables with
  | none => none
  | some t =>
    match t.tdWallet with
    | none => none
    | some w =>
      match w.href with
      | none => none
      | some link =>
        let name := (headTailName w).getD "Unknown Owner"
        let walletButton := Button.walletBtn name link false
        let telegram := if name ≠ "" then createTelegramButton name else none
        some (walletButton :: telegram.toList)

/-- `extract_for_sale_owner_info` (requires at least three cells in the
first bid row; missing head/tail spans raise, caught as `none`). -/
def extractForSaleOwnerInfo (d : Doc) : Option (List Button) :=
  match d.firstBidRow with
  | none => none
  | some row =>
    if row.tds.length < 3 then none
    else
      match row.tds.getLast? with
      | none => none
      | some cell =>
        match cell.wallet with
        | none => none
        | some w =>
          match w.href with
          | none => none
          | some link =>
            match headTailName w with
            | none => none
            | some name =>
              let walletButton := Button.walletBtn name link false
              let telegram :=
                if name ≠ "" then createTelegramButton name else none
              some (walletButton :: telegram.toList)

/-! ### Status dispatch and messages -/

/-- `get_status_message`. -/
def getStatusMessage (status username : String) : String :=
  let emoji :=
    if status = "Unavailable" then "❌"
    else if status = "Sold" then "🔴"
    else if status = "Taken" then "🟠"
    else "🟢"
  emoji ++ " @" ++ username ++ " is *" ++ pyLower status ++ "*"

/-- The extraction branch selected by the `if/elif` chain of
`handle_query` (lines 620, 625, 652, 661): exact, case-sensitive string
comparison; any other status text selects no extraction branch. -/
inductive StatusBranch where
  | availableB
  | onAuctionB
  | soldB
  | forSaleB
  | otherB
deriving DecidableEq

def statusBranch (s : String) : StatusBranch :=
  if s = "Available" then .availableB
  else if s = "On auction" then .onAuctionB
  else if s = "Sold" then .soldB
  else if s = "For sale" then .forSaleB
  else .otherB

/-- Modelled from the spec's claim wording only, for comparison with the
code: the claimed case-insensitive status table. -/
inductive SpecStatus where
  | Available
  | OnAuction
  | ForSale
  | Sold
  | Unavailable
deriving DecidableEq

/-- The dispatch table exactly as the claim states it: case-insensitive,
`"available" → Available`, `"on auction" → OnAuction`,
`"for sale" → ForSale`, `"sold" → Sold`, anything else `Unavailable`. -/
def specStatusDispatch (s : String) : SpecStatus :=
  let t := pyLower s
  if t = "available" then .Available
  else if t = "on auction" then .OnAuction
  else if t = "for sale" then .ForSale
  else if t = "sold" then .Sold
  else .Unavailable

/-- `escape_markdown`'s list of special characters, in source order
(backtick and the two braces written by code point). -/
def mdSpecialChars : List Char :=
  ['_', '*', '[', ']', '(', ')', '~', Char.ofNat 96, '>', '#', '+', '-',
   '=', '|', Char.ofNat 123, Char.ofNat 125, '.', '!']

/-- `escape_markdown`. -/
def escapeMarkdown (text : String) : String :=
  mdSpecialChars.foldl
    (fun t c => pyReplace t (String.mk [c]) (String.mk ['\\', c])) text

/-! ### Auction provenance resolver (`fetch_auction_config_from_tonapi`,
`create_enhanced_auction_source_button`) -/

/-- `FRAGMENT_MINT_ADDRESS` (`config.py`). -/
def FRAGMENT_MINT_ADDRESS : String :=
  "0:408da3b28b6c065a593e10391269baaa9c5f8caebc0c69d9f0aabbab2a99256b"

/-- The observable behaviour of the two TONAPI endpoints during one
resolution: the DNS response status and extracted address, and the
auction-config response status and payload shape. -/
structure TonapiEnv where
  dnsStatus : Nat
  /-- `dns_data["item"]["address"]` when both keys are present -/
  dnsAddress : Option String
  auctionStatus : Nat
  /-- `auction_data.get("success")` truthiness -/
  auctionSuccess : Bool
  /-- `"decoded" in auction_data` -/
  auctionHasDecoded : Bool
  /-- `auction_data["decoded"].get("beneficiar")` -/
  auctionBeneficiar : Option String
deriving DecidableEq

/-- The dictionary returned by `fetch_auction_config_from_tonapi`. -/
structure TonapiResult where
  address : String
  success : Bool
  hasDecoded : Bool
  beneficiar : Option String
deriving DecidableEq

/-- `fetch_auction_config_from_tonapi`: two sequential lookups, `None`
on ownership history being present, on a non-200 at either step, or on a
missing address. -/
def fetchAuctionConfigFromTonapi (htmlContent : String) (env : TonapiEnv) :
    Option TonapiResult :=
  if pyIn "Ownership History" htmlContent then none
  else if env.dnsStatus ≠ 200 then none
  else
    match env.dnsAddress with
    | none => none
    | some addr =>
      if env.auctionStatus ≠ 200 then none
      else
        some ⟨addr, env.auctionSuccess, env.auctionHasDecoded,
          env.auctionBeneficiar⟩

/-- `create_enhanced_auction_source_button`: the platform-mint flag is
an exact match of the beneficiary against `FRAGMENT_MINT_ADDRESS`. -/
def createEnhancedAuctionSourceButton (r : Option TonapiResult) :
    Option Button :=
  match r with
  | none => none
  | some res =>
    if ¬ res.success then none
    else if ¬ res.hasDecoded then none
    else
      match res.beneficiar with
      | none => none
      | some b =>
        if b = "" then none
        else if b = FRAGMENT_MINT_ADDRESS then some (.mintBtn true b)
        else some (.mintBtn false b)

/-! ### `handle_query` -/

/-- Cache-time constants (`config.py`). -/
def ERROR_CACHE_TIME : Nat := 5
def UNAVAILABLE_USERNAME_CACHE_TIME : Nat := 300
def USERNAME_RESULT_CACHE_TIME : Nat := 300
def EMPTY_QUERY_CACHE_TIME : Nat := 5
def INVALID_QUERY_CACHE_TIME : Nat := 300
def NUMERIC_QUERY_CACHE_TIME : Nat := 30

/-- The outcome of `get_fragment_page`: redirect (`None`), unexpected
status (`False`), or a parsed body. -/
inductive PageFetch where
  | redirect
  | failStatus
  | page (d : Doc)
deriving DecidableEq

/-- The answer `handle_query` sends, stripped to its observable content:
the result kind, the message texts, the keyboard rows and the cache
time. -/
inductive QueryResult where
  | unavailable (message : String) (cacheTime : Nat)
  | errorChecking (cacheTime : Nat)
  | article (short long : String) (rows : List (List Button))
      (cacheTime : Nat)
deriving DecidableEq

def QueryResult.longText : QueryResult → String
  | .article _ l _ _ => l
  | _ => ""

def QueryResult.keyboardRows : QueryResult → List (List Button)
  | .article _ _ r _ => r
  | _ => []

/-- The keyboard rows built by the "On auction" branch, in source
order: minimum bid, highest bid, buy-now, wallet row, mint button. -/
def onAuctionRows (d : Doc) (u : String) (env : TonapiEnv) :
    List (List Button) :=
  let minBid := extractMinimumBidInfo d u
  let highBid := extractHighestBidInfo d u
  let buyNow := extractBuyNowInfo d u
  let wallet := mostRecentWalletInfo d minBid.isNone
  let mint :=
    createEnhancedAuctionSourceButton
      (fetchAuctionConfigFromTonapi d.htmlText env)
  (minBid.map (fun b => [b])).toList ++ (highBid.map (fun b => [b])).toList
    ++ (buyNow.map (fun b => [b])).toList ++ wallet.toList
    ++ (mint.map (fun b => [b])).toList

/-- `handle_query` as a pure function of the fetched page and the TONAPI
responses. -/
def handleQuery (u : String) (f : PageFetch) (env : TonapiEnv) :
    QueryResult :=
  let unav :=
    QueryResult.unavailable (getStatusMessage "Unavailable" u)
      UNAVAILABLE_USERNAME_CACHE_TIME
  match f with
  | .redirect => unav
  | .failStatus => unav
  | .page d =>
    if d.htmlText = "" then unav
    else
      match getUsernameStatus d with
      | none => .errorChecking ERROR_CACHE_TIME
      | some status =>
        if status = "" then .errorChecking ERROR_CACHE_TIME
        else
          let short := getStatusMessage status u
          let long := pyReplace short u (escapeMarkdown u)
          let rows :=
            match statusBranch status with
            | .availableB => ((availablePriceInfo d u).map (fun b => [b])).toList
            | .onAuctionB => onAuctionRows d u env
            | .soldB =>
              ((extractSoldPriceInfo d u).map (fun b => [b])).toList
                ++ (extractSoldOwnerInfo d).toList
            | .forSaleB =>
              (extractForSaleOwnerInfo d).toList
                ++ ((extractBuyNowInfo d u).map (fun b => [b])).toList
            | .otherB => []
          let long :=
            if statusBranch status = .onAuctionB then
              if (extractMinimumBidInfo d u).isSome then
                long ++ " *without* bids"
              else long ++ " *with* bids"
            else long
          let long :=
            if statusBranch status = .onAuctionB
                ∨ statusBranch status = .forSaleB then
              match extractEndsInInfo d.countdown with
              | some t => long ++ "\n⏱️ Ends in: *" ++ t ++ "*"
              | none => long
            else long
          .article short long rows USERNAME_RESULT_CACHE_TIME

/-! ### Currency rate cache (`services/rates.py`)

Upstream prices are modelled as `ℚ` (ideal reals of the JSON feeds); a
failed or exception-raising fetch is `none`. -/

def TON_RATE_CACHE_DURATION : ℚ := 120
def FLOOR_PRICE_CACHE_DURATION : ℚ := 300

/-- The module-level `rates_cache` dictionary. -/
structure RatesCache where
  tonUsd : Option ℚ
  source1 : Option ℚ
  source2 : Option ℚ
  lastUpdate : ℚ
deriving DecidableEq

/-- `rates_cache` initial value (line 11 of `rates.py`). -/
def ratesInit : RatesCache := ⟨none, none, none, 0⟩

/-- A kernel-computable floor on `ℚ` (Lean's `Int` division is
euclidean, so this agrees with `Int.floor`, see `ratFloor_eq`). -/
def ratFloor (q : ℚ) : ℤ := q.num / q.den

/-- Round half to even, Python's `round` on the ideal value. -/
def roundHalfEven (q : ℚ) : ℤ :=
  let f : ℤ := ratFloor q
  let r : ℚ := q - f
  if r < 1/2 then f
  else if 1/2 < r then f + 1
  else if f % 2 = 0 then f else f + 1

/-- Python `round(x, 4)`. -/
def round4 (q : ℚ) : ℚ := (roundHalfEven (q * 10000) : ℚ) / 10000

/-- `update_rates`, as a function of the two fetch results and the
clock: stores both source prices unconditionally, averages the
available subset into `ton_usd` (keeping the prior value when both
fail), then rounds the stored value to 4 digits. -/
def updateRates (coingeckoPrice binancePrice : Option ℚ) (now : ℚ)
    (s : RatesCache) : RatesCache :=
  let tonUsd :=
    match coingeckoPrice, binancePrice with
    | some a, some b => some ((a + b) / 2)
    | some a, none => some a
    | none, some b => some b
    | none, none => s.tonUsd
  { tonUsd := tonUsd.map round4
    source1 := coingeckoPrice
    source2 := binancePrice
    lastUpdate := now }

/-- `get_ton_price`: returns the cached price, refreshing synchronously
first when the value is unset or the cache has expired. -/
def getTonPrice (coingeckoPrice binancePrice : Option ℚ) (now : ℚ)
    (s : RatesCache) : Option ℚ × RatesCache :=
  if s.tonUsd = none ∨ now - s.lastUpdate > TON_RATE_CACHE_DURATION then
    let s' := updateRates coingeckoPrice binancePrice now s
    (s'.tonUsd, s')
  else (s.tonUsd, s)

/-! ### Floor price cache (`services/getgems.py`) -/

/-- The dictionary returned by a successful `fetch_floor_price`. -/
structure FloorData where
  price : ℚ
  number : String
  itemAddress : Option String
deriving DecidableEq

/-- The module-level `floor_price_cache` dictionary. -/
structure FloorCache where
  price : Option ℚ
  number : Option String
  itemAddress : Option String
  lastUpdate : ℚ
deriving DecidableEq

/-- `floor_price_cache` initial value (lines 13-18 of `getgems.py`). -/
def floorInit : FloorCache := ⟨none, none, none, 0⟩

/-- `update_floor_price`: replaces all fields on success only; a failed
fetch leaves the cache untouched. -/
def updateFloorPrice (floorData : Option FloorData) (now : ℚ)
    (s : FloorCache) : FloorCache :=
  match floorData with
  | some fd =>
    { price := some fd.price
      number := some fd.number
      itemAddress := fd.itemAddress
      lastUpdate := now }
  | none => s

/-- `get_floor_price`: returns the cache (and its age), refreshing
synchronously first when the price is unset or the cache has expired. -/
def getFloorPrice (floorData : Option FloorData) (now : ℚ)
    (s : FloorCache) : FloorCache × ℚ :=
  let cacheAge := now - s.lastUpdate
  if s.price = none ∨ cacheAge > FLOOR_PRICE_CACHE_DURATION then
    (updateFloorPrice floorData now s, 0)
  else (s, cacheAge)

/-! ### Query classifier (`config.py` / `bot.py`)

`USERNAME_PATTERN = r"^[a-z][a-z0-9_]{2,}[a-z0-9]$"`, applied with
`re.match`. Under Python semantics `$` also matches just before one
trailing newline. -/

def isAzChar (c : Char) : Bool := 'a' ≤ c && c ≤ 'z'
def isAz09Char (c : Char) : Bool := isAzChar c || isDigitChar c
def isWordChar (c : Char) : Bool := isAz09Char c || c = '_'

/-- Python `$` in `re.match`: end of input, or a single final newline. -/
def dollarEnd : List Char → Bool
  | [] => true
  | [c] => c = '\n'
  | _ :: _ :: _ => false

/-- Operational matcher for the tail `[a-z0-9_]{n,}[a-z0-9]$` of the
username pattern: consume at least `n` word characters, then one
letter-or-digit, then the end anchor (existential backtracking
semantics). -/
def matchRest : Nat → List Char → Bool
  | _, [] => false
  | 0, c :: rest =>
    (isAz09Char c && dollarEnd rest) || (isWordChar c && matchRest 0 rest)
  | Nat.succ n, c :: rest => isWordChar c && matchRest n rest

/-- `re.match(USERNAME_PATTERN, s)` truthiness. -/
def pyMatchUsername (s : String) : Bool :=
  match s.toList with
  | [] => false
  | c :: rest => isAzChar c && matchRest 2 rest

/-- `is_valid_query` (`bot.py`). -/
def isValidQuery (s : String) : Bool := pyMatchUsername s

/-- Declarative identifier grammar with a minimum length, following the
claim's wording: starts with a letter, ends with a letter or digit,
interior characters are letters/digits/underscore. -/
def coreGrammar (minLen : Nat) (l : List Char) : Prop :=
  minLen ≤ l.length ∧
    ∃ a mid z, l = a :: (mid ++ [z]) ∧ isAzChar a = true ∧
      isAz09Char z = true ∧ mid.all isWordChar = true

/-! ### Numeric conversion path (`services/price_converter.py`) -/

/-- `NUMERIC_PATTERN = r"^[\d,\.]+$"` applied with `re.match` (`\d` and
`float()` are modelled over the ASCII digits; the `$`-before-newline
case is included). -/
def numericBody (l : List Char) : Bool :=
  l ≠ [] && l.all (fun c => isDigitChar c || c = ',' || c = '.')

/-- `is_numeric_query`. -/
def isNumericQuery (s : String) : Bool :=
  numericBody s.toList
    || (s.toList.getLast? = some '\n' && numericBody s.toList.dropLast)

/-- Python `float(s)` on the strings reachable from the numeric grammar
after comma replacement (digits, periods and surrounding whitespace):
`none` models the raised `ValueError`. -/
def pyFloat (s : String) : Option ℚ :=
  let l := ((s.toList.dropWhile isWS).reverse.dropWhile isWS).reverse
  if l.all (fun c => isDigitChar c || c = '.') && l.any isDigitChar then
    let dots := l.countP (fun c => c = '.')
    if dots = 0 then some (digitsVal l)
    else if dots = 1 then
      let ip := l.takeWhile (fun c => c ≠ '.')
      let fp := (l.dropWhile (fun c => c ≠ '.')).drop 1
      some (mkRat (digitsVal ip * 10 ^ fp.length + digitsVal fp)
        (10 ^ fp.length))
    else none
  else none

/-- `process_number_input`: commas become periods, an unparseable string
becomes `0.0`. -/
def processNumberInput (s : String) : ℚ :=
  match pyFloat (pyReplace s "," ".") with
  | some q => q
  | none => 0

/-! ### Concrete documents and environments used as test inputs -/

/-- A TONAPI environment whose DNS lookup fails (non-200). -/
def scenarioEnv : TonapiEnv := ⟨404, none, 404, false, false, none⟩

/-- The end-to-end scenario page: status `On auction`, no "Highest Bid"
text, a minimum-bid table showing `10` TON / `$25`, no bid-history
rows, no buy-now button, no countdown. -/
def scenarioDoc : Doc :=
  { htmlText := "<html>"
    pageText := "On auction Minimum Bid"
    statusSpanText := some "On auction"
    bidSectionPrice := none
    onelineCell := none
    tables := [⟨["Minimum Bid"], some ⟨some "10", some "$25"⟩, none, none⟩]
    firstBidRow := none
    buyNow := none
    countdown := none }

/-- A page whose text contains "Highest Bid". -/
def hbDoc : Doc :=
  { scenarioDoc with pageText := "Highest Bid" }

/-- A non-empty page whose status marker node is absent. -/
def noMarkerDoc : Doc :=
  { htmlText := "<html>"
    pageText := "nothing here"
    statusSpanText := none
    bidSectionPrice := none
    onelineCell := none
    tables := []
    firstBidRow := none
    buyNow := none
    countdown := none }

/-- A page whose status marker text is the lower-case "available". -/
def lowerAvailableDoc : Doc :=
  { noMarkerDoc with
    pageText := "available"
    statusSpanText := some "available"
    bidSectionPrice :=
      some ⟨some "5", "5", some "$10"⟩ }

/-- Spec-modelled claim wording for the countdown format: chooses the
days form exactly when the parsed day count is positive. -/
def claimedCountdownFormat (days hours mins : Nat) : String :=
  if 0 < days then
    natStr days ++ "d " ++ natStr hours ++ "h " ++ natStr mins ++ "m"
  else natStr hours ++ "h " ++ natStr mins ++ "m"

/-! ## Theorems -/

theorem ratFloor_eq (q : ℚ) : ratFloor q = ⌊q⌋ := by
  rw [Rat.floor_def]; rfl

theorem leadMatch_append (n b : List Char) : leadMatch n (n ++ b) = true := by
  induction n with
  | nil => rfl
  | cons a as' ih => simp [leadMatch, ih]

theorem subOccurs_here (n b : List Char) : subOccurs n (n ++ b) = true := by
  cases hn : n ++ b with
  | nil =>
    have hn' : n = [] := by cases n <;> simp_all
    subst hn'
    simp [subOccurs, leadMatch]
  | cons c cs =>
    rw [subOccurs, ← hn, leadMatch_append]
    simp

theorem subOccurs_cons (n : List Char) (c : Char) (l : List Char)
    (h : subOccurs n l = true) : subOccurs n (c :: l) = true := by
  rw [subOccurs, h]
  simp

theorem subOccurs_append_left (n a b : List Char) :
    subOccurs n (a ++ n ++ b) = true := by
  induction a with
  | nil => simpa using subOccurs_here n b
  | cons x xs ih => simpa using subOccurs_cons n x (xs ++ n ++ b) (by simpa using ih)

/-- `needle` occurs in `pre ++ needle ++ post`. -/
theorem pyIn_append (needle pre post : String) :
    pyIn needle (pre ++ needle ++ post) = true := by
  show subOccurs needle.data (pre ++ needle ++ post).data = true
  rw [String.data_append, String.data_append]
  exact subOccurs_append_left needle.data pre.data post.data

/-- `needle` occurs in `pre ++ needle`. -/
theorem pyIn_append_right (needle pre : String) :
    pyIn needle (pre ++ needle) = true := by
  show subOccurs needle.data (pre ++ needle).data = true
  rw [String.data_append]
  simpa using subOccurs_append_left needle.data pre.data []

/-- Claim C1: a markup-parseable document without the status marker node
yields the distinct "error checking username" result (5s cache), with no
extraction performed, never an exception; it is distinguishable from the
"Unavailable" result (300s cache). -/
theorem claim_C1 : ∀ (u : String) (d : Doc) (env : TonapiEnv),
    d.htmlText ≠ "" → d.statusSpanText = none →
    handleQuery u (.page d) env = .errorChecking ERROR_CACHE_TIME ∧
    handleQuery u .redirect env =
      .unavailable (getStatusMessage "Unavailable" u)
        UNAVAILABLE_USERNAME_CACHE_TIME ∧
    handleQuery u (.page d) env ≠ handleQuery u .redirect env := by
  intro u d env h1 h2
  refine ⟨?_, rfl, ?_⟩ <;>
    simp [handleQuery, getUsernameStatus, h1, h2]

theorem claim_C1_witness :
    noMarkerDoc.htmlText ≠ "" ∧ noMarkerDoc.statusSpanText = none ∧
    handleQuery "abcde" (.page noMarkerDoc) scenarioEnv =
      .errorChecking ERROR_CACHE_TIME :=
  ⟨by decide, rfl,
    (claim_C1 "abcde" noMarkerDoc scenarioEnv (by decide) rfl).1⟩

/-- Claim C2 fails on the code: the claimed case-insensitive table sends
the status text "available" to `Available`, but `handle_query` compares
case-sensitively and takes no extraction branch for it (even though the
document carries an extractable price); likewise "Taken" is not mapped
to `Unavailable` but rendered as its own status. -/
theorem claim_C2_counterexample :
    specStatusDispatch "available" = SpecStatus.Available ∧
    statusBranch "available" = StatusBranch.otherB ∧
    availablePriceInfo lowerAvailableDoc "abcde" ≠ none ∧
    (handleQuery "abcde" (.page lowerAvailableDoc) scenarioEnv).keyboardRows
      = [] ∧
    specStatusDispatch "Taken" = SpecStatus.Unavailable ∧
    statusBranch "Taken" = StatusBranch.otherB ∧
    getStatusMessage "Taken" "abcde" ≠ getStatusMessage "Unavailable" "abcde"
    := by
  refine ⟨by decide, by decide, by decide, by decide, by decide, by decide,
    by decide⟩

/-- Claim C2 amended: the status text is dispatched by exact,
case-sensitive string comparison — `"Available"`, `"On auction"`,
`"Sold"`, `"For sale"` select their extraction branches — and any other
status text (lower-case variants included) selects no extraction branch
and is rendered as-is instead of being mapped to `Unavailable`. -/
theorem claim_C2_amended :
    (∀ s, statusBranch s = .availableB ↔ s = "Available") ∧
    (∀ s, statusBranch s = .onAuctionB ↔ s = "On auction") ∧
    (∀ s, statusBranch s = .soldB ↔ s = "Sold") ∧
    (∀ s, statusBranch s = .forSaleB ↔ s = "For sale") ∧
    (∀ s, s ≠ "Available" → s ≠ "On auction" → s ≠ "Sold" →
      s ≠ "For sale" → statusBranch s = .otherB) := by
  refine ⟨?_, ?_, ?_, ?_, ?_⟩ <;>
    intro s <;> unfold statusBranch <;> split_ifs <;> simp_all

theorem claim_C2_amended_witness :
    statusBranch "Minted" = StatusBranch.otherB :=
  claim_C2_amended.2.2.2.2 "Minted" (by decide) (by decide) (by decide)
    (by decide)

theorem leadMatch_ext (n : List Char) : ∀ h e, leadMatch n h = true →
    leadMatch n (h ++ e) = true := by
  induction n with
  | nil => intro h e _; rfl
  | cons a as' ih =>
    intro h e hm
    cases h with
    | nil => simp [leadMatch] at hm
    | cons b bs =>
      simp [leadMatch] at hm ⊢
      exact ⟨hm.1, ih bs e hm.2⟩

theorem subOccurs_nil_needle (e : List Char) : subOccurs [] e = true := by
  cases e <;> simp [subOccurs, leadMatch]

theorem subOccurs_ext (n h e : List Char) (hm : subOccurs n h = true) :
    subOccurs n (h ++ e) = true := by
  induction h with
  | nil =>
    cases n with
    | nil => simpa using subOccurs_nil_needle e
    | cons x xs => simp [subOccurs, leadMatch] at hm
  | cons c cs ih =>
    rw [subOccurs] at hm
    rcases Bool.or_eq_true_iff.mp hm with hl | hr
    · have := leadMatch_ext n (c :: cs) e hl
      rw [List.cons_append, subOccurs]
      rw [List.cons_append] at this
      simp [this]
    · rw [List.cons_append, subOccurs]
      simp [ih hr]

/-- Occurrence survives appending on the right. -/
theorem pyIn_ext (needle h e : String) (hm : pyIn needle h = true) :
    pyIn needle (h ++ e) = true := by
  show subOccurs needle.data (h ++ e).data = true
  rw [String.data_append]
  exact subOccurs_ext needle.data h.data e.data hm

/-- Claim C3: a minimum bid is extracted only when "Highest Bid" appears
nowhere in the page text; the presence of the extracted minimum bid is
the discriminant of the message suffix (" *without* bids" when found,
" *with* bids" otherwise); and the end-to-end scenario — `"abcde"`, `On
auction`, no "Highest Bid", a 10 TON / $25 minimum-bid widget, no
bid-history rows — yields exactly the minimum-bid quote, no
counterparty, and the "without bids" suffix. -/
theorem claim_C3 :
    (∀ (d : Doc) (u : String), pyIn "Highest Bid" d.pageText = true →
      extractMinimumBidInfo d u = none) ∧
    (∀ (u : String) (d : Doc) (env : TonapiEnv), d.htmlText ≠ "" →
      getUsernameStatus d = some "On auction" →
      ((extractMinimumBidInfo d u).isSome = true →
        pyIn " *without* bids" (handleQuery u (.page d) env).longText
          = true) ∧
      ((extractMinimumBidInfo d u).isSome = false →
        pyIn " *with* bids" (handleQuery u (.page d) env).longText
          = true)) ∧
    handleQuery "abcde" (.page scenarioDoc) scenarioEnv =
      .article "🟢 @abcde is *on auction*"
        "🟢 @abcde is *on auction* *without* bids"
        [[Button.priceBtn "abcde" (some "10") (some "25")]]
        USERNAME_RESULT_CACHE_TIME := by
  refine ⟨?_, ?_, by decide⟩
  · intro d u h
    simp [extractMinimumBidInfo, h]
  · intro u d env h1 h2
    have hsb : statusBranch "On auction" = StatusBranch.onAuctionB := by
      decide
    have hne : ("On auction" : String) ≠ "" := by decide
    constructor
    · intro hmin
      simp only [handleQuery, h1, h2, hsb, hmin, hne, if_false, if_true,
        ite_false, ite_true, QueryResult.longText]
      cases hc : extractEndsInInfo d.countdown with
      | none =>
        simp [hc, QueryResult.longText]
        exact pyIn_append_right _ _
      | some t =>
        simp [hc, QueryResult.longText]
        exact pyIn_ext _ _ _ (pyIn_ext _ _ _ (pyIn_ext _ _ _
          (pyIn_append_right _ _)))
    · intro hmin
      simp only [handleQuery, h1, h2, hsb, hmin, hne, if_false, if_true,
        ite_false, ite_true, QueryResult.longText]
      cases hc : extractEndsInInfo d.countdown with
      | none =>
        simp [hc, QueryResult.longText]
        exact pyIn_append_right _ _
      | some t =>
        simp [hc, QueryResult.longText]
        exact pyIn_ext _ _ _ (pyIn_ext _ _ _ (pyIn_ext _ _ _
          (pyIn_append_right _ _)))

theorem claim_C3_witness :
    pyIn "Highest Bid" hbDoc.pageText = true ∧
    extractMinimumBidInfo hbDoc "abcde" = none ∧
    pyIn " *without* bids"
      (handleQuery "abcde" (.page scenarioDoc) scenarioEnv).longText
      = true :=
  ⟨by decide, claim_C3.1 hbDoc "abcde" (by decide),
    (claim_C3.2.1 "abcde" scenarioDoc scenarioEnv (by decide)
      (by decide)).1 (by decide)⟩

/-- Claim C4 fails on the code: with digit values days = "10 days",
hours = "02", minutes = "05", the claimed format for days > 0 is
"10d 2h 5m", but the code tests the substring "0 days" (which occurs
inside "10 days") and so emits "2h 5m", dropping the ten days. -/
theorem claim_C4_counterexample :
    extractEndsInInfo
      (some ⟨some "10 days", some "0", some "2", some "0", some "5"⟩)
      = some "2h 5m" ∧
    claimedCountdownFormat 10 2 5 = "10d 2h 5m" ∧
    some "2h 5m" ≠ some (claimedCountdownFormat 10 2 5) := by
  refine ⟨by decide, by decide, by decide⟩

/-- Claim C4 amended: each missing digit pair (days, hours, minutes)
defaults to zero rather than aborting, and the discriminant between the
two output formats is whether the substring "0 days" occurs in the days
text (not whether the day count is zero): "{days}d {hours}h {minutes}m"
when it does not occur, "{hours}h {minutes}m" when it does.  The two
concrete examples of the claim are unaffected. -/
theorem claim_C4_amended :
    (∀ c : Countdown, c.daysVal = none →
      extractEndsInInfo (some c) =
        extractEndsInInfo (some { c with daysVal := some "0 days" })) ∧
    (∀ c : Countdown, c.hour0 = none ∨ c.hour1 = none →
      extractEndsInInfo (some c) =
        extractEndsInInfo
          (some { c with hour0 := some "0", hour1 := some "0" })) ∧
    (∀ c : Countdown, c.min0 = none ∨ c.min1 = none →
      extractEndsInInfo (some c) =
        extractEndsInInfo
          (some { c with min0 := some "0", min1 := some "0" })) ∧
    (∀ (dv h0 h1 m0 m1 : String) (dn hn mn : Nat),
      pyIn "0 days" dv = false →
      pyInt (pyReplace (pyReplace dv " days" "") " day" "") = some dn →
      pyInt (h0 ++ h1) = some hn → pyInt (m0 ++ m1) = some mn →
      extractEndsInInfo (some ⟨some dv, some h0, some h1, some m0, some m1⟩)
        = some (natStr dn ++ "d " ++ natStr hn ++ "h " ++ natStr mn ++ "m"))
      ∧
    (∀ (dv h0 h1 m0 m1 : String) (hn mn : Nat),
      pyIn "0 days" dv = true →
      pyInt (h0 ++ h1) = some hn → pyInt (m0 ++ m1) = some mn →
      extractEndsInInfo (some ⟨some dv, some h0, some h1, some m0, some m1⟩)
        = some (natStr hn ++ "h " ++ natStr mn ++ "m")) ∧
    extractEndsInInfo
      (some ⟨some "0 days", some "0", some "2", some "0", some "5"⟩)
      = some "2h 5m" ∧
    extractEndsInInfo
      (some ⟨some "1 day", some "0", some "0", some "0", some "0"⟩)
      = some "1d 0h 0m" := by
  refine ⟨?_, ?_, ?_, ?_, ?_, by decide, by decide⟩
  · rintro ⟨dv, ch0, ch1, cm0, cm1⟩ hd
    simp at hd
    subst hd
    rfl
  · rintro ⟨dv, ch0, ch1, cm0, cm1⟩ hd
    rcases hd with h | h
    · simp at h; subst h; cases ch1 <;> rfl
    · simp at h; subst h; cases ch0 <;> rfl
  · rintro ⟨dv, ch0, ch1, cm0, cm1⟩ hd
    rcases hd with h | h
    · simp at h; subst h; cases cm1 <;> rfl
    · simp at h; subst h; cases cm0 <;> rfl
  · intro dv h0 h1 m0 m1 dn hn mn hnotin hdn hhn hmn
    simp [extractEndsInInfo, hnotin, hdn, hhn, hmn]
  · intro dv h0 h1 m0 m1 hn mn hin hhn hmn
    simp [extractEndsInInfo, hin, hhn, hmn]

theorem claim_C4_amended_witness :
    extractEndsInInfo
      (some ⟨some "3 days", some "1", some "2", some "0", some "7"⟩)
      = some "3d 12h 7m" ∧
    extractEndsInInfo (some ⟨none, some "0", some "2", some "0", some "5"⟩)
      = extractEndsInInfo
        (some ⟨some "0 days", some "0", some "2", some "0", some "5"⟩) :=
  ⟨claim_C4_amended.2.2.2.1 "3 days" "1" "2" "0" "7" 3 12 7 (by decide)
      (by decide) (by decide) (by decide),
    claim_C4_amended.1 ⟨none, some "0", some "2", some "0", some "5"⟩ rfl⟩

theorem roundHalfEven_intCast (n : ℤ) : roundHalfEven ((n : ℚ)) = n := by
  unfold roundHalfEven
  rw [ratFloor_eq, Int.floor_intCast]
  norm_num

theorem round4_intCast (n : ℤ) : round4 ((n : ℚ)) = (n : ℚ) := by
  unfold round4
  have h : ((n : ℚ)) * 10000 = (((n * 10000 : ℤ) : ℚ)) := by push_cast; ring
  rw [h, roundHalfEven_intCast]
  push_cast
  field_simp

theorem round4_idem (q : ℚ) : round4 (round4 q) = round4 q := by
  unfold round4
  have h : ((roundHalfEven (q * 10000) : ℚ)) / 10000 * 10000
      = ((roundHalfEven (q * 10000) : ℚ)) := by
    field_simp
  rw [h, roundHalfEven_intCast]

/-- Claim C5: both TTL caches start unset, a failed refresh never clears
a set value, and `get()` never returns an unset value once the cached
value is set (monotonic non-regression of availability). -/
theorem claim_C5 :
    ratesInit.tonUsd = none ∧ floorInit.price = none ∧
    (∀ (cg bn : Option ℚ) (now : ℚ) (s : RatesCache),
      s.tonUsd.isSome = true →
      ((updateRates cg bn now s).tonUsd).isSome = true) ∧
    (∀ (fd : Option FloorData) (now : ℚ) (s : FloorCache),
      s.price.isSome = true →
      ((updateFloorPrice fd now s).price).isSome = true) ∧
    (∀ (cg bn : Option ℚ) (now : ℚ) (s : RatesCache),
      s.tonUsd.isSome = true →
      ((getTonPrice cg bn now s).1).isSome = true) ∧
    (∀ (fd : Option FloorData) (now : ℚ) (s : FloorCache),
      s.price.isSome = true →
      (((getFloorPrice fd now s).1).price).isSome = true) := by
  have hup : ∀ (cg bn : Option ℚ) (now : ℚ) (s : RatesCache),
      s.tonUsd.isSome = true →
      ((updateRates cg bn now s).tonUsd).isSome = true := by
    intro cg bn now s h
    cases cg <;> cases bn <;> simp_all [updateRates]
  have hfl : ∀ (fd : Option FloorData) (now : ℚ) (s : FloorCache),
      s.price.isSome = true →
      ((updateFloorPrice fd now s).price).isSome = true := by
    intro fd now s h
    cases fd <;> simp_all [updateFloorPrice]
  refine ⟨rfl, rfl, hup, hfl, ?_, ?_⟩
  · intro cg bn now s h
    unfold getTonPrice
    split_ifs with hcond
    · exact hup cg bn now s h
    · exact h
  · intro fd now s h
    simp only [getFloorPrice]
    split_ifs with hcond
    · exact hfl fd now s h
    · exact h

theorem claim_C5_witness :
    ((updateRates none none 1
        (updateRates (some 5) (some 7) 0 ratesInit)).tonUsd).isSome
      = true ∧
    ((getTonPrice none none 1000
        (updateRates (some 5) (some 7) 0 ratesInit)).1).isSome = true ∧
    Option.isSome
      ((getFloorPrice none 1000
        (updateFloorPrice (some ⟨3, "+888", none⟩) 0 floorInit)).1.price)
      = true :=
  ⟨claim_C5.2.2.1 none none 1
      (updateRates (some 5) (some 7) 0 ratesInit) (by rfl),
    claim_C5.2.2.2.2.1 none none 1000
      (updateRates (some 5) (some 7) 0 ratesInit) (by rfl),
    claim_C5.2.2.2.2.2 none 1000
      (updateFloorPrice (some ⟨3, "+888", none⟩) 0 floorInit) (by rfl)⟩

/-- Claim C6: one rate refresh stores the 4-digit-rounded mean when both
sources succeed, the single successful price when exactly one succeeds,
and leaves the previous composite untouched when both fail; every stored
composite is in the image of the 4-digit rounding.  Concretely, 5.0 and
7.0 give 6.0, 5.0 alone gives 5.0, and a doubly-failed round leaves the
prior composite unchanged. -/
theorem claim_C6 :
    (∀ (now : ℚ) (s : RatesCache) (a b : ℚ),
      (updateRates (some a) (some b) now s).tonUsd
        = some (round4 ((a + b) / 2))) ∧
    (∀ (now : ℚ) (s : RatesCache) (a : ℚ),
      (updateRates (some a) none now s).tonUsd = some (round4 a)) ∧
    (∀ (now : ℚ) (s : RatesCache) (b : ℚ),
      (updateRates none (some b) now s).tonUsd = some (round4 b)) ∧
    (∀ (now : ℚ) (s : RatesCache) (v : ℚ), s.tonUsd = some v →
      round4 v = v → (updateRates none none now s).tonUsd = some v) ∧
    (∀ (cg bn : Option ℚ) (now : ℚ) (s : RatesCache) (v : ℚ),
      (updateRates cg bn now s).tonUsd = some v → round4 v = v) ∧
    (updateRates (some 5) (some 7) 0 ratesInit).tonUsd = some 6 ∧
    (updateRates (some 5) none 0 ratesInit).tonUsd = some 5 ∧
    (updateRates none none 1
        (updateRates (some 5) (some 7) 0 ratesInit)).tonUsd
      = (updateRates (some 5) (some 7) 0 ratesInit).tonUsd := by
  have h57 : ((5 : ℚ) + 7) / 2 = ((6 : ℤ) : ℚ) := by norm_num
  have h5 : (5 : ℚ) = ((5 : ℤ) : ℚ) := by norm_num
  refine ⟨?_, ?_, ?_, ?_, ?_, ?_, ?_, ?_⟩
  · intro now s a b; rfl
  · intro now s a; rfl
  · intro now s b; rfl
  · intro now s v hv hr
    simp [updateRates, hv, hr]
  · intro cg bn now s v h
    cases cg with
    | none =>
      cases bn with
      | none =>
        have h' : s.tonUsd.map round4 = some v := h
        cases hs : s.tonUsd with
        | none => rw [hs] at h'; simp at h'
        | some w =>
          rw [hs] at h'
          simp only [Option.map_some'] at h'
          rw [← Option.some.inj h', round4_idem]
      | some b =>
        rw [← Option.some.inj h, round4_idem]
    | some a =>
      cases bn with
      | none => rw [← Option.some.inj h, round4_idem]
      | some b => rw [← Option.some.inj h, round4_idem]
  · show some (round4 (((5 : ℚ) + 7) / 2)) = some 6
    rw [h57, round4_intCast]
    norm_num
  · show some (round4 (5 : ℚ)) = some 5
    rw [h5, round4_intCast]
  · exact congrArg some (round4_idem (((5 : ℚ) + 7) / 2))

theorem claim_C6_witness :
    (updateRates (some 2) (some 4) 0 ratesInit).tonUsd
      = some (round4 ((2 + 4) / 2)) ∧
    (updateRates none none 3
        (updateRates (some 2) (some 4) 0 ratesInit)).tonUsd
      = some (round4 ((2 + 4) / 2)) :=
  ⟨claim_C6.1 0 ratesInit 2 4,
    claim_C6.2.2.2.1 3 (updateRates (some 2) (some 4) 0 ratesInit)
      (round4 ((2 + 4) / 2)) (claim_C6.1 0 ratesInit 2 4)
      (round4_idem ((2 + 4) / 2))⟩

/-- Claim C7 fails on the code: `update_rates` assigns both per-source
cache entries unconditionally, so a round in which source 1 fails erases
its previously stored last-seen value (5.0 becomes unset). -/
theorem claim_C7_counterexample :
    (updateRates (some 5) (some 7) 0 ratesInit).source1 = some 5 ∧
    (updateRates none (some 7) 1
        (updateRates (some 5) (some 7) 0 ratesInit)).source1 = none := by
  exact ⟨rfl, rfl⟩

/-- Claim C7 amended: every refresh round overwrites both per-source
entries with that round's fetch results; a source that failed this round
has its entry set to unset (the previous last-seen value is erased and
the UI shows it as N/A). -/
theorem claim_C7_amended :
    ∀ (cg bn : Option ℚ) (now : ℚ) (s : RatesCache),
      (updateRates cg bn now s).source1 = cg ∧
      (updateRates cg bn now s).source2 = bn := by
  intro cg bn now s
  exact ⟨rfl, rfl⟩

theorem dollarEnd_iff (e : List Char) :
    dollarEnd e = true ↔ e = [] ∨ e = ['\n'] := by
  match e with
  | [] => simp [dollarEnd]
  | [c] => simp [dollarEnd]
  | a :: b :: r => simp [dollarEnd]

theorem matchRest_zero_iff (l : List Char) :
    matchRest 0 l = true ↔
      ∃ w c e, l = w ++ c :: e ∧ w.all isWordChar = true ∧
        isAz09Char c = true ∧ dollarEnd e = true := by
  induction l with
  | nil =>
    constructor
    · intro h; simp [matchRest] at h
    · rintro ⟨w, c, e, heq, -, -, -⟩
      exact absurd heq (by simp)
  | cons a rest ih =>
    rw [matchRest]
    constructor
    · intro h
      rcases Bool.or_eq_true_iff.mp h with h1 | h2
      · rw [Bool.and_eq_true] at h1
        exact ⟨[], a, rest, rfl, rfl, h1.1, h1.2⟩
      · rw [Bool.and_eq_true] at h2
        obtain ⟨w, c, e, heq, hwall, hc, he⟩ := ih.mp h2.2
        refine ⟨a :: w, c, e, ?_, ?_, hc, he⟩
        · rw [List.cons_append, heq]
        · simp [List.all_cons, h2.1, hwall]
    · rintro ⟨w, c, e, heq, hwall, hc, he⟩
      apply Bool.or_eq_true_iff.mpr
      cases w with
      | nil =>
        simp only [List.nil_append, List.cons.injEq] at heq
        left
        rw [heq.1, heq.2, Bool.and_eq_true]
        exact ⟨hc, he⟩
      | cons x xs =>
        simp only [List.cons_append, List.cons.injEq] at heq
        right
        rw [Bool.and_eq_true]
        simp only [List.all_cons, Bool.and_eq_true] at hwall
        exact ⟨heq.1 ▸ hwall.1, ih.mpr ⟨xs, c, e, heq.2, hwall.2, hc, he⟩⟩

theorem matchRest_succ_iff (n : Nat) (l : List Char) :
    matchRest (n + 1) l = true ↔
      ∃ c rest, l = c :: rest ∧ isWordChar c = true ∧
        matchRest n rest = true := by
  cases l with
  | nil => simp [matchRest]
  | cons a rest =>
    rw [matchRest, Bool.and_eq_true]
    constructor
    · intro h; exact ⟨a, rest, rfl, h.1, h.2⟩
    · rintro ⟨c, r, heq, hw, hm⟩
      simp only [List.cons.injEq] at heq
      exact ⟨heq.1 ▸ hw, heq.2 ▸ hm⟩

theorem matchFull_iff (c : Char) (rest : List Char) :
    (isAzChar c && matchRest 2 rest) = true ↔
      (coreGrammar 4 (c :: rest) ∨
        ∃ l', c :: rest = l' ++ ['\n'] ∧ coreGrammar 4 l') := by
  rw [Bool.and_eq_true]
  constructor
  · rintro ⟨haz, hm⟩
    obtain ⟨m1, r1, he1, hw1, hm1⟩ := (matchRest_succ_iff 1 rest).mp hm
    obtain ⟨m2, r2, he2, hw2, hm2⟩ := (matchRest_succ_iff 0 r1).mp hm1
    obtain ⟨w, z, e, he3, hwall, hz, hde⟩ := (matchRest_zero_iff r2).mp hm2
    subst he1; subst he2; subst he3
    rcases (dollarEnd_iff e).mp hde with he | he
    · subst he
      left
      refine ⟨by simp, c, m1 :: m2 :: w, z, by simp, haz, hz, ?_⟩
      simp [List.all_cons, hw1, hw2, hwall]
    · subst he
      right
      refine ⟨c :: ((m1 :: m2 :: w) ++ [z]), by simp,
        ⟨by simp, c, m1 :: m2 :: w, z, rfl, haz, hz, ?_⟩⟩
      simp [List.all_cons, hw1, hw2, hwall]
  · rintro (⟨hlen, a, mid, z, heq, haz, hz, hmid⟩ |
      ⟨l', heq', hlen, a, mid, z, heq, haz, hz, hmid⟩)
    · simp only [List.cons.injEq] at heq
      obtain ⟨hca, hrest⟩ := heq
      subst hca
      cases mid with
      | nil => rw [hrest] at hlen; simp at hlen
      | cons m1 mid1 =>
        cases mid1 with
        | nil => rw [hrest] at hlen; simp at hlen
        | cons m2 w =>
          simp only [List.all_cons, Bool.and_eq_true] at hmid
          refine ⟨haz, ?_⟩
          rw [hrest]
          exact (matchRest_succ_iff 1 _).mpr ⟨m1, m2 :: (w ++ [z]), rfl,
            hmid.1,
            (matchRest_succ_iff 0 _).mpr ⟨m2, w ++ [z], rfl, hmid.2.1,
              (matchRest_zero_iff _).mpr
                ⟨w, z, [], rfl, hmid.2.2, hz, rfl⟩⟩⟩
    · subst heq
      simp only [List.cons_append, List.append_assoc, List.nil_append,
        List.cons.injEq] at heq'
      obtain ⟨hca, hrest⟩ := heq'
      subst hca
      cases mid with
      | nil => simp at hlen
      | cons m1 mid1 =>
        cases mid1 with
        | nil => simp at hlen
        | cons m2 w =>
          simp only [List.all_cons, Bool.and_eq_true] at hmid
          refine ⟨haz, ?_⟩
          rw [hrest]
          exact (matchRest_succ_iff 1 _).mpr
            ⟨m1, m2 :: (w ++ z :: ['\n']), rfl, hmid.1,
            (matchRest_succ_iff 0 _).mpr
              ⟨m2, w ++ z :: ['\n'], rfl, hmid.2.1,
              (matchRest_zero_iff _).mpr
                ⟨w, z, ['\n'], rfl, hmid.2.2, hz, by decide⟩⟩⟩

/-- Claim C8 fails on the code: the regex `^[a-z][a-z0-9_]{2,}[a-z0-9]$`
admits strings of length 4, so "abcd" is classified as an identifier
although the claimed grammar gloss requires length at least 5. -/
theorem claim_C8_counterexample :
    isValidQuery "abcd" = true ∧ ¬ coreGrammar 5 "abcd".toList := by
  refine ⟨by decide, ?_⟩
  rintro ⟨h5, -⟩
  have h4 : ("abcd".toList).length = 4 := by decide
  omega

/-- Claim C8 amended: the classifier accepts exactly the queries that,
possibly after removing one trailing newline (Python `re.match` `$`
semantics), have length at least 4 (not 5), start with a lower-case
letter, end with a lower-case letter or digit, and have interior
characters drawn from letters, digits and underscore. -/
theorem claim_C8_amended : ∀ s : String,
    isValidQuery s = true ↔
      (coreGrammar 4 s.toList ∨
        ∃ l, s.toList = l ++ ['\n'] ∧ coreGrammar 4 l) := by
  intro s
  unfold isValidQuery pyMatchUsername
  cases hl : s.toList with
  | nil =>
    constructor
    · intro h; cases h
    · rintro (⟨hlen, a, mid, z, heq, -⟩ | ⟨l', heq, -⟩)
      · exact absurd heq (by simp)
      · exact absurd heq (by simp)
  | cons c rest => exact matchFull_iff c rest

theorem claim_C8_amended_witness :
    coreGrammar 4 "abcde".toList ∨
      ∃ l, "abcde".toList = l ++ ['\n'] ∧ coreGrammar 4 l :=
  (claim_C8_amended "abcde").mp (by decide)

/-- Claim C9: the provenance resolver does nothing when the page has an
ownership-history marker, returns `None` on a non-success response (or
missing address) at either of its two sequential lookups with no retry,
and the platform-mint flag holds exactly when the returned beneficiary
equals the fixed `FRAGMENT_MINT_ADDRESS`. -/
theorem claim_C9 :
    (∀ (html : String) (env : TonapiEnv),
      pyIn "Ownership History" html = true →
      fetchAuctionConfigFromTonapi html env = none) ∧
    (∀ (html : String) (env : TonapiEnv), env.dnsStatus ≠ 200 →
      fetchAuctionConfigFromTonapi html env = none) ∧
    (∀ (html : String) (env : TonapiEnv), env.dnsAddress = none →
      fetchAuctionConfigFromTonapi html env = none) ∧
    (∀ (html : String) (env : TonapiEnv), env.auctionStatus ≠ 200 →
      fetchAuctionConfigFromTonapi html env = none) ∧
    (∀ (r : TonapiResult) (b : String), r.success = true →
      r.hasDecoded = true → r.beneficiar = some b → b ≠ "" →
      (createEnhancedAuctionSourceButton (some r)
          = some (.mintBtn true b) ↔ b = FRAGMENT_MINT_ADDRESS) ∧
      (b ≠ FRAGMENT_MINT_ADDRESS →
        createEnhancedAuctionSourceButton (some r)
          = some (.mintBtn false b))) := by
  refine ⟨?_, ?_, ?_, ?_, ?_⟩
  · intro html env h
    simp [fetchAuctionConfigFromTonapi, h]
  · intro html env h
    simp [fetchAuctionConfigFromTonapi, h]
  · intro html env h
    unfold fetchAuctionConfigFromTonapi
    split_ifs <;> simp [h]
  · intro html env h
    unfold fetchAuctionConfigFromTonapi
    split_ifs <;> simp_all
    cases henv : env.dnsAddress <;> simp [h]
  · intro r b hs hd hb hne
    have hred : createEnhancedAuctionSourceButton (some r)
        = (if b = FRAGMENT_MINT_ADDRESS then some (Button.mintBtn true b)
           else some (Button.mintBtn false b)) := by
      simp only [createEnhancedAuctionSourceButton, hs, hd, hb]
      simp [hne]
    rw [hred]
    constructor
    · constructor
      · intro heq
        by_cases hf : b = FRAGMENT_MINT_ADDRESS
        · exact hf
        · rw [if_neg hf] at heq
          simp at heq
      · intro hf
        rw [if_pos hf]
    · intro hf
      rw [if_neg hf]

theorem claim_C9_witness :
    fetchAuctionConfigFromTonapi "has Ownership History here" scenarioEnv
      = none ∧
    fetchAuctionConfigFromTonapi "<html>" scenarioEnv = none ∧
    (createEnhancedAuctionSourceButton
        (some ⟨"addr", true, true, some FRAGMENT_MINT_ADDRESS⟩)
      = some (.mintBtn true FRAGMENT_MINT_ADDRESS) ↔
        FRAGMENT_MINT_ADDRESS = FRAGMENT_MINT_ADDRESS) :=
  ⟨claim_C9.1 "has Ownership History here" scenarioEnv (by decide),
    claim_C9.2.1 "<html>" scenarioEnv (by decide),
    (claim_C9.2.2.2.2 ⟨"addr", true, true, some FRAGMENT_MINT_ADDRESS⟩
      FRAGMENT_MINT_ADDRESS rfl rfl rfl (by decide)).1⟩

/-- Claim C10: on the numeric-grammar path the conversion never raises —
commas are replaced by periods before parsing, so "1,000" converts to
the number 1.0 (not one thousand), and an accepted string that still
fails to parse, such as "1,2,3", converts to 0.0. -/
theorem claim_C10 :
    pyReplace "1,000" "," "." = "1.000" ∧
    processNumberInput "1,000" = 1 ∧
    processNumberInput "1,2,3" = 0 ∧
    (∀ s : String, isNumericQuery s = true →
      (pyFloat (pyReplace s "," ".") = none → processNumberInput s = 0) ∧
      (∀ q : ℚ, pyFloat (pyReplace s "," ".") = some q →
        processNumberInput s = q)) := by
  refine ⟨by decide, by decide, by decide, ?_⟩
  intro s _
  constructor
  · intro h
    unfold processNumberInput
    rw [h]
  · intro q h
    unfold processNumberInput
    rw [h]

theorem claim_C10_witness :
    processNumberInput "12,5" = mkRat 25 2 :=
  (claim_C10.2.2.2 "12,5" (by decide)).2 (mkRat 25 2) (by decide)
